import Mathlib

/-!
Shallow embedding of the battle-snakes creature core (src/snake.py) and the
parts of its external collaborators (settings constants, vector utilities,
arena/tilemap contract) that the verified properties need.  Python floats are
embedded as rationals, Python ints as Lean integers; fallible operations
(list indexing, dictionary lookup, division by zero) return Option.
-/

namespace BattleSnakes

/-- Grid cell or direction vector: a pair of integers. -/
abbrev Pos := Int × Int

/-- Modelled from the spec: external vector helper add_vecs (component-wise addition). -/
def add_vecs (a b : Pos) : Pos := (a.1 + b.1, a.2 + b.2)

/-- Modelled from the spec: external vector helper sub_vecs (component-wise subtraction). -/
def sub_vecs (a b : Pos) : Pos := (a.1 - b.1, a.2 - b.2)

/-- Modelled from the spec: external helper m_distance, the Manhattan distance. -/
def m_distance (a b : Pos) : Nat := (a.1 - b.1).natAbs + (a.2 - b.2).natAbs

/-- Modelled from the spec: external helper normalize, normalization of a grid
vector to a unit step (component-wise sign). -/
def normalize (v : Pos) : Pos := (v.1.sign, v.2.sign)

-- Direction flags (snake.py lines 24 to 37).
def N : Nat := 0x1
def E : Nat := 0x2
def S : Nat := 0x4
def W : Nat := 0x8
def SE : Nat := S + E
def SW : Nat := S + W
def NE : Nat := N + E
def NW : Nat := N + W
def STRAIGHT : Nat := 0x10
def VERTICAL : Nat := 0x20

/-- Maps vectors to their corresponding flags; a key outside the dictionary
raises in Python, hence Option here. -/
def VEC_TO_DIRFLAG (v : Pos) : Option Nat :=
  if v = (0, -1) then some N
  else if v = (1, 0) then some E
  else if v = (0, 1) then some S
  else if v = (-1, 0) then some W
  else none

/-- Source sub-region of the skin texture (pygame Rect). -/
structure Rect where
  x : Nat
  y : Nat
  w : Nat
  h : Nat
deriving DecidableEq

def STRAIGHT1_V : Rect := ⟨20, 20, 10, 10⟩
def STRAIGHT1_H : Rect := ⟨20, 30, 10, 10⟩
def STRAIGHT2_V : Rect := ⟨30, 20, 10, 10⟩
def STRAIGHT2_H : Rect := ⟨30, 30, 10, 10⟩

/-- Sprite dictionary HEAD, keyed by a direction flag. -/
def HEAD (f : Nat) : Option Rect :=
  if f = N then some ⟨0, 0, 10, 10⟩
  else if f = S then some ⟨10, 10, 10, 10⟩
  else if f = E then some ⟨10, 0, 10, 10⟩
  else if f = W then some ⟨0, 10, 10, 10⟩
  else none

/-- Sprite dictionary TAIL, keyed by a direction flag. -/
def TAIL (f : Nat) : Option Rect :=
  if f = N then some ⟨20, 0, 10, 10⟩
  else if f = S then some ⟨30, 10, 10, 10⟩
  else if f = E then some ⟨30, 0, 10, 10⟩
  else if f = W then some ⟨20, 10, 10, 10⟩
  else none

/-- Sprite dictionary TURN, keyed by a composite direction flag. -/
def TURN (f : Nat) : Option Rect :=
  if f = SE then some ⟨0, 20, 10, 10⟩
  else if f = SW then some ⟨10, 20, 10, 10⟩
  else if f = NE then some ⟨0, 30, 10, 10⟩
  else if f = NW then some ⟨10, 30, 10, 10⟩
  else none

/-- Modelled from the spec: the external arena contract, an edge test and an
ordered collection of portal cells (the tilemap object used by snake.py). -/
structure Tilemap where
  on_edge : Pos → Bool
  portals : List Pos

/-- Linear scan over the portal keys: the first portal at Manhattan distance
exactly 1 from b (snake.py lines 74 to 78 and 89 to 93). -/
def find_portal (tilemap : Tilemap) (b : Pos) : Option Pos :=
  tilemap.portals.find? (fun portal => m_distance portal b == 1)

/-- Embedding of get_arrangement (snake.py lines 49 to 105).  The only caller
passes an interior index, so the Nat subtraction in the first lookup agrees
with the Python index arithmetic there. -/
def get_arrangement (snake : List Pos) (index : Nat) (tilemap : Tilemap) :
    Option Nat :=
  match snake[index - 1]?, snake[index]?, snake[index + 1]? with
  | some a, some b, some c =>
    let ba := sub_vecs a b
    let bc := sub_vecs c b
    let a_on_edge := tilemap.on_edge a
    let pa : Pos × Pos :=
      if 1 < m_distance a b then
        let ba := if a_on_edge then normalize ba else ba
        match find_portal tilemap b with
        | some portal => (portal, sub_vecs portal b)
        | none => (a, ba)
      else (a, ba)
    let pc : Pos × Pos :=
      if 1 < m_distance c b then
        let bc := if a_on_edge then normalize (-bc.1, -bc.2) else bc
        match find_portal tilemap b with
        | some portal => (portal, sub_vecs portal b)
        | none => (c, bc)
      else (c, bc)
    if pa.1.1 = b.1 ∧ b.1 = pc.1.1 then
      some (VERTICAL ||| STRAIGHT)
    else if pa.1.2 = b.2 ∧ b.2 = pc.1.2 then
      some STRAIGHT
    else
      match VEC_TO_DIRFLAG pa.2, VEC_TO_DIRFLAG pc.2 with
      | some fa, some fc => some (fa ||| fc)
      | _, _ => none
  | _, _, _ => none

/-- Modelled from the spec (section 4.4): the effective neighbor behind b and
the vector toward it, after wrap normalization and portal substitution. -/
def effective_behind (tilemap : Tilemap) (a b : Pos) : Pos × Pos :=
  if m_distance a b ≤ 1 then (a, sub_vecs a b)
  else
    let ba := if tilemap.on_edge a then normalize (sub_vecs a b) else sub_vecs a b
    match find_portal tilemap b with
    | some portal => (portal, sub_vecs portal b)
    | none => (a, ba)

/-- Modelled from the spec (section 4.4): the effective neighbor ahead of b,
with the vector negated before normalization; the edge test used is passed in
by the caller. -/
def effective_ahead (tilemap : Tilemap) (edge : Bool) (c b : Pos) : Pos × Pos :=
  if m_distance c b ≤ 1 then (c, sub_vecs c b)
  else
    let bc :=
      if edge then normalize (-(sub_vecs c b).1, -(sub_vecs c b).2)
      else sub_vecs c b
    match find_portal tilemap b with
    | some portal => (portal, sub_vecs portal b)
    | none => (c, bc)

/-- Modelled from the spec (section 4.4): final classification of the three
cells into straight or turn orientation flags. -/
def classify (a b c ba bc : Pos) : Option Nat :=
  if a.1 = b.1 ∧ b.1 = c.1 then some (VERTICAL ||| STRAIGHT)
  else if a.2 = b.2 ∧ b.2 = c.2 then some STRAIGHT
  else
    match VEC_TO_DIRFLAG ba, VEC_TO_DIRFLAG bc with
    | some fa, some fc => some (fa ||| fc)
    | _, _ => none

/-- Modelled from the spec, exactly as claim C6 reads it: the edge test for
the ahead neighbor is performed on c itself. -/
def arrangement_c_edge (snake : List Pos) (index : Nat) (tilemap : Tilemap) :
    Option Nat :=
  match snake[index - 1]?, snake[index]?, snake[index + 1]? with
  | some a, some b, some c =>
    let pa := effective_behind tilemap a b
    let pc := effective_ahead tilemap (tilemap.on_edge c) c b
    classify pa.1 b pc.1 pa.2 pc.2
  | _, _, _ => none

/-- Modelled from the spec (section 4.4) with the edge test amended to reuse
the edge status of a in the ahead branch, as the source does. -/
def arrangement_a_edge (snake : List Pos) (index : Nat) (tilemap : Tilemap) :
    Option Nat :=
  match snake[index - 1]?, snake[index]?, snake[index + 1]? with
  | some a, some b, some c =>
    let pa := effective_behind tilemap a b
    let pc := effective_ahead tilemap (tilemap.on_edge a) c b
    classify pa.1 b pc.1 pa.2 pc.2
  | _, _, _ => none

/-- Modelled from the spec: the external configuration constants imported by
snake.py from the settings module. -/
structure Config where
  MAX_HITPOINTS : Int
  INIT_SPEED : ℚ
  MIN_SPEED : ℚ
  MAX_SPEED : ℚ
  INVINCIBILITY_BLINK_RATE : ℚ
deriving DecidableEq

/-- The movement state owned by a creature: SnakeNormalState, or
SnakeInvincibleState with its lifetime and the two timers. -/
inductive SState where
  | normal : SState
  | invincible (lifetime elapsed_lifetime elapsed_blink : ℚ) : SState
deriving DecidableEq

/-- The creature aggregate (class Snake, snake.py lines 155 to 181).  The
rendering tags and skin handle carry no behavior and are omitted; the killed
handler is modelled by returning the list of attacker identities it was
invoked with. -/
structure Snake where
  body : List Pos
  prev : List Pos
  heading : Option Pos
  prev_heading : Option Pos
  hitpoints : Int
  speed : ℚ
  speed_bonus : ℚ
  elapsed_t : ℚ
  grow : Int
  isalive : Bool
  isvisible : Bool
  isinvincible : Bool
  ismoving : Bool
  state : SState
deriving DecidableEq

/-- Embedding of the hitpoints setter (snake.py lines 187 to 195). -/
def set_hitpoints (cfg : Config) (s : Snake) (value : Int) : Snake :=
  if value > cfg.MAX_HITPOINTS then { s with hitpoints := cfg.MAX_HITPOINTS }
  else if value < 0 then { s with hitpoints := 0 }
  else { s with hitpoints := value }

/-- Embedding of the speed setter (snake.py lines 202 to 210). -/
def set_speed (cfg : Config) (s : Snake) (value : ℚ) : Snake :=
  if value > cfg.MAX_SPEED then { s with speed := cfg.MAX_SPEED }
  else if value < cfg.MIN_SPEED then { s with speed := cfg.MIN_SPEED }
  else { s with speed := value }

/-- Embedding of the speed_bonus setter (snake.py lines 217 to 220): the value
is stored unclamped. -/
def set_speed_bonus (s : Snake) (value : ℚ) : Snake :=
  { s with speed_bonus := value }

/-- Embedding of gain_speed (snake.py lines 222 to 224). -/
def gain_speed (cfg : Config) (s : Snake) (value : ℚ) : Snake :=
  set_speed cfg s (s.speed + value)

/-- Embedding of gain_hitpoints (snake.py lines 226 to 230); the second clamp
is kept although the setter already clamped. -/
def gain_hitpoints (cfg : Config) (s : Snake) (value : Int) : Snake :=
  let s := set_hitpoints cfg s (s.hitpoints + value)
  if s.hitpoints > cfg.MAX_HITPOINTS then set_hitpoints cfg s cfg.MAX_HITPOINTS
  else s

/-- Embedding of set_heading (snake.py lines 232 to 236). -/
def set_heading (s : Snake) (new_heading : Pos) : Snake :=
  { s with
    prev_heading := s.heading,
    heading :=
      some (if new_heading ≠ (0, 0) then normalize new_heading else new_heading) }

/-- Leave hook dispatch of change_state (snake.py lines 238 to 242): only
SnakeInvincibleState has a leave method (lines 149 to 152). -/
def state_leave (s : Snake) : Snake :=
  match s.state with
  | .normal => s
  | .invincible _ _ _ => { s with isinvincible := false, isvisible := true }

/-- Embedding of change_state (snake.py lines 238 to 242). -/
def change_state (s : Snake) (new_state : SState) : Snake :=
  { state_leave s with state := new_state }

/-- Constructor effect of SnakeInvincibleState (snake.py lines 128 to 133):
sets the invincibility flag on the owner and returns the fresh state value.
In Python the constructor runs before change_state is entered. -/
def mk_invincible (s : Snake) (lifetime : ℚ) : Snake × SState :=
  ({ s with isinvincible := true }, .invincible lifetime 0 0)

/-- Embedding of Snake constructor state (snake.py lines 161 to 180): two body
cells, full hitpoints, initial speed written directly to the field, and an
initial invincible state of lifetime 5 installed by plain assignment. -/
def Snake.init (cfg : Config) (pos : Pos) : Snake :=
  { body := [pos, (pos.1 + 1, pos.2)],
    prev := [pos, (pos.1 + 1, pos.2)],
    heading := none,
    prev_heading := none,
    hitpoints := cfg.MAX_HITPOINTS,
    speed := cfg.INIT_SPEED,
    speed_bonus := 0,
    elapsed_t := 0,
    grow := 0,
    isalive := true,
    isvisible := true,
    isinvincible := true,
    ismoving := false,
    state := .invincible 5 0 0 }

/-- Python list.pop() on the last element; popping an empty list raises. -/
def py_pop (l : List Pos) : Option (List Pos) :=
  if l.isEmpty then none else some l.dropLast

/-- Shrink loop of take_damage (snake.py lines 249 to 255): up to shrink pops,
each guarded by the length of body being exactly 2, popping prev when setback
is requested and body otherwise. -/
def shrink_phase (setback : Bool) :
    Nat → List Pos → List Pos → Option (List Pos × List Pos)
  | 0, body, prev => some (body, prev)
  | n + 1, body, prev =>
    if body.length = 2 then some (body, prev)
    else if setback then
      match py_pop prev with
      | some prev => shrink_phase setback n body prev
      | none => none
    else
      match py_pop body with
      | some body => shrink_phase setback n body prev
      | none => none

/-- Damage branch of take_damage (snake.py lines 247 to 256), executed only
when the creature is not invincible. -/
def damage_phase (cfg : Config) (s : Snake) (dmg : Int) (setback : Bool)
    (shrink : Nat) (slowdown : ℚ) : Option Snake :=
  if s.isinvincible then some s
  else
    let s := set_hitpoints cfg s (s.hitpoints - dmg)
    match shrink_phase setback shrink s.body s.prev with
    | some (body, prev) =>
      some (gain_speed cfg { s with body := body, prev := prev } (-slowdown))
    | none => none

/-- Setback branch of take_damage (snake.py lines 258 to 272): restore body
from prev and recompute the heading from the first two cells. -/
def setback_phase (s : Snake) (setback : Bool) : Option Snake :=
  if setback then
    let s := { s with body := s.prev }
    match s.body[0]?, s.body[1]? with
    | some h0, some h1 =>
      let xpos : Int := if h0.1 > h1.1 then 1 else if h0.1 < h1.1 then -1 else 0
      let ypos : Int := if h0.2 > h1.2 then 1 else if h0.2 < h1.2 then -1 else 0
      let s := set_heading s (xpos, ypos)
      some { s with prev_heading := some (xpos, ypos) }
    | _, _ => none
  else some s

/-- Invincibility grant of take_damage (snake.py lines 274 to 275). -/
def grant_phase (s : Snake) (invincible : Bool) (invinc_lifetime : ℚ) : Snake :=
  if invincible && !s.isinvincible then
    let p := mk_invincible s invinc_lifetime
    change_state p.1 p.2
  else s

/-- Death check of take_damage (snake.py lines 277 to 279): unconditional, and
the killed handler invocation is modelled as the returned event list. -/
def death_phase (s : Snake) (dealt_by : Int) : Snake × List Int :=
  if s.hitpoints ≤ 0 then ({ s with isalive := false }, [dealt_by])
  else (s, [])

/-- Embedding of take_damage (snake.py lines 244 to 279). -/
def take_damage (cfg : Config) (s : Snake) (dmg : Int) (dealt_by : Int)
    (setback invincible : Bool) (invinc_lifetime : ℚ) (shrink : Nat)
    (slowdown : ℚ) : Option (Snake × List Int) :=
  match damage_phase cfg s dmg setback shrink slowdown with
  | none => none
  | some s =>
    match setback_phase s setback with
    | none => none
    | some s =>
      some (death_phase (grant_phase s invincible invinc_lifetime) dealt_by)

/-- Guarded pop loop of the negative-growth branch of move (snake.py lines 318
to 322). -/
def pop_guard : Nat → List Pos → Option (List Pos)
  | 0, body => some body
  | n + 1, body =>
    if body.length = 2 then some body
    else
      match py_pop body with
      | some body => pop_guard n body
      | none => none

/-- Embedding of move (snake.py lines 303 to 323).  The toroidal wrap of the
arena is passed in as a function; indexing an empty body, adding a missing
heading, and dividing by a zero cadence denominator all raise in Python and
yield none here. -/
def move (tor : Pos → Pos) (s : Snake) : Option Snake :=
  if !s.ismoving then some s
  else
    match s.body with
    | [] => none
    | h0 :: rest =>
      let h0 := tor h0
      let s := { s with body := h0 :: rest }
      if s.speed + s.speed_bonus = 0 then none
      else if 1 / (s.speed + s.speed_bonus) ≤ s.elapsed_t then
        match s.heading with
        | none => none
        | some hd =>
          let s := { s with
            prev := s.body,
            elapsed_t := s.elapsed_t - 1 / (s.speed + s.speed_bonus) }
          let body := add_vecs h0 hd :: s.body
          if s.grow = (0 : Int) then some { s with body := body.dropLast }
          else if s.grow > (0 : Int) then
            some { s with body := body, grow := s.grow - 1 }
          else
            match pop_guard (s.grow.natAbs + 1) body with
            | some body => some { s with body := body, grow := 0 }
            | none => none
      else some s

/-- Per-frame update of the active movement state (SnakeNormalState.update at
snake.py lines 117 to 119 and SnakeInvincibleState.update at lines 135 to
147), dispatched on the state tag. -/
def state_update (cfg : Config) (tor : Pos → Pos) (s : Snake) (dt : ℚ) :
    Option Snake :=
  match s.state with
  | .normal => move tor s
  | .invincible lifetime el eb =>
    let el := el + dt
    let eb := eb + dt
    let s :=
      if cfg.INVINCIBILITY_BLINK_RATE ≤ eb then
        { s with
          isvisible := !s.isvisible,
          state := .invincible lifetime el (eb - cfg.INVINCIBILITY_BLINK_RATE) }
      else { s with state := .invincible lifetime el eb }
    let s := if lifetime ≤ el then change_state s .normal else s
    move tor s

/-- Embedding of Snake.update (snake.py lines 293 to 301). -/
def update (cfg : Config) (tor : Pos → Pos) (s : Snake) (dt : ℚ) :
    Option Snake :=
  if !s.isalive then some s
  else
    let s := if s.ismoving then { s with elapsed_t := s.elapsed_t + dt } else s
    state_update cfg tor s dt

/-- Embedding of respawn (snake.py lines 281 to 291); prev is not reset. -/
def respawn (cfg : Config) (s : Snake) (pos : Pos) : Snake :=
  let s := { s with
    body := [pos, (pos.1 + 1, pos.2)],
    speed := cfg.INIT_SPEED,
    heading := none,
    prev_heading := none,
    ismoving := false,
    isalive := true }
  let s := set_hitpoints cfg s cfg.MAX_HITPOINTS
  let p := mk_invincible s (7 / 2)
  let s := change_state p.1 p.2
  { s with elapsed_t := 0 }

/-- Sprite area selection for one body segment inside draw (snake.py lines 334
to 364): head sprite by the current heading with a West fallback for a missing
or zero heading, interior sprites through get_arrangement, tail sprite by the
normalized vector between the last two cells with the same West fallback. -/
def draw_area (tilemap : Tilemap) (s : Snake) (index : Nat) : Option Rect :=
  let body_len := s.body.length
  if index = 0 then
    match s.heading with
    | some h =>
      if h ≠ (0, 0) then
        match VEC_TO_DIRFLAG h with
        | some f => HEAD f
        | none => none
      else HEAD W
    | none => HEAD W
  else if index < body_len - 1 then
    match get_arrangement s.body index tilemap with
    | some argm =>
      if argm &&& STRAIGHT = STRAIGHT then
        if argm &&& VERTICAL = VERTICAL then
          some (if index % 2 = 1 then STRAIGHT1_V else STRAIGHT2_V)
        else
          some (if index % 2 = 1 then STRAIGHT1_H else STRAIGHT2_H)
      else TURN (argm &&& 15)
    | none => none
  else
    match s.heading with
    | some h =>
      if h ≠ (0, 0) then
        match s.body[body_len - 2]?, s.body[body_len - 1]? with
        | some v2, some v1 =>
          match VEC_TO_DIRFLAG (normalize (sub_vecs v2 v1)) with
          | some f => TAIL f
          | none => none
        | _, _ => none
      else TAIL W
    | none => TAIL W

/-- States of a creature reachable through the public operations of the Snake
class; the toroidal wrap may be any arena, and the moving flag is written
directly by the game driver, as the spec describes. -/
inductive Reach (cfg : Config) : Snake → Prop where
  | sInit (pos : Pos) : Reach cfg (Snake.init cfg pos)
  | sGainSpeed {s : Snake} (v : ℚ) :
      Reach cfg s → Reach cfg (gain_speed cfg s v)
  | sGainHitpoints {s : Snake} (v : Int) :
      Reach cfg s → Reach cfg (gain_hitpoints cfg s v)
  | sSetSpeedBonus {s : Snake} (v : ℚ) :
      Reach cfg s → Reach cfg (set_speed_bonus s v)
  | sSetHeading {s : Snake} (v : Pos) :
      Reach cfg s → Reach cfg (set_heading s v)
  | sSetMoving {s : Snake} (b : Bool) :
      Reach cfg s → Reach cfg { s with ismoving := b }
  | sTakeDamage {s s2 : Snake} {ev : List Int} (dmg dealt_by : Int)
      (setback invincible : Bool) (invinc_lifetime : ℚ) (shrink : Nat)
      (slowdown : ℚ) :
      Reach cfg s →
      take_damage cfg s dmg dealt_by setback invincible invinc_lifetime
        shrink slowdown = some (s2, ev) →
      Reach cfg s2
  | sRespawn {s : Snake} (pos : Pos) :
      Reach cfg s → Reach cfg (respawn cfg s pos)
  | sUpdate {s s2 : Snake} (tor : Pos → Pos) (dt : ℚ) :
      Reach cfg s → update cfg tor s dt = some s2 → Reach cfg s2
  | sMove {s s2 : Snake} (tor : Pos → Pos) :
      Reach cfg s → move tor s = some s2 → Reach cfg s2

/-- Concrete configuration used by the concrete instances below: max
hitpoints 100, initial speed 5, speed bounds 1 and 10, blink rate 1/4. -/
def cfg0 : Config := ⟨100, 5, 1, 10, 1 / 4⟩

/-- Identity toroidal wrap (an arena large enough that nothing wraps). -/
def tor0 : Pos → Pos := fun p => p

/-- Arena with no edge cells and no portals. -/
def tmX : Tilemap := ⟨fun _ => false, []⟩

/-- Arena whose edge cells are exactly those with x-coordinate 0, no portals. -/
def tm6 : Tilemap := ⟨fun p => p.1 == 0, []⟩

/-- Vectors between cells at Manhattan distance at most 1 are the zero vector
or one of the four cardinal unit vectors. -/
theorem adjacent_vec_cases {p q : Pos} (h : m_distance p q ≤ 1) :
    sub_vecs p q = (0, 0) ∨ sub_vecs p q = (1, 0) ∨ sub_vecs p q = (-1, 0) ∨
    sub_vecs p q = (0, 1) ∨ sub_vecs p q = (0, -1) := by
  unfold m_distance at h
  have h2 : (p.1 - q.1 = 0 ∧ p.2 - q.2 = 0) ∨ (p.1 - q.1 = 1 ∧ p.2 - q.2 = 0) ∨
      (p.1 - q.1 = -1 ∧ p.2 - q.2 = 0) ∨ (p.1 - q.1 = 0 ∧ p.2 - q.2 = 1) ∨
      (p.1 - q.1 = 0 ∧ p.2 - q.2 = -1) := by omega
  unfold sub_vecs
  rcases h2 with ⟨u, v⟩ | ⟨u, v⟩ | ⟨u, v⟩ | ⟨u, v⟩ | ⟨u, v⟩ <;>
    simp [u, v, Prod.ext_iff]

/-- C10: for every creature with isAlive false, update returns immediately
and leaves the entire creature state unchanged: no time accumulates, the
movement state timers do not advance, and no movement step occurs. -/
theorem update_dead (cfg : Config) (tor : Pos → Pos) (s : Snake) (dt : ℚ)
    (h : s.isalive = false) : update cfg tor s dt = some s := by
  unfold update
  rw [h]
  rfl

/-- Concrete dead creature. -/
def sDead : Snake := { Snake.init cfg0 (0, 0) with isalive := false }

/-- Witness for update_dead at a concrete dead creature. -/
theorem update_dead_witness :
    sDead.isalive = false ∧ update cfg0 tor0 sDead 1 = some sDead :=
  ⟨rfl, update_dead cfg0 tor0 sDead 1 rfl⟩

/-- C7: for an interior index whose three cells are pairwise close (no wrap
gap, so no edge or portal adjustment fires), the arrangement resolver returns
VERTICAL with STRAIGHT when a, b, c share the x-coordinate, STRAIGHT when
they share the y-coordinate, and otherwise the bitwise or of the compass
flags of the vectors from b toward a and from b toward c. -/
theorem get_arrangement_interior (snake : List Pos) (index : Nat)
    (tilemap : Tilemap) (a b c : Pos)
    (ha : snake[index - 1]? = some a) (hb : snake[index]? = some b)
    (hc : snake[index + 1]? = some c)
    (hab : m_distance a b ≤ 1) (hcb : m_distance c b ≤ 1) :
    get_arrangement snake index tilemap =
      some (if a.1 = b.1 ∧ b.1 = c.1 then VERTICAL ||| STRAIGHT
        else if a.2 = b.2 ∧ b.2 = c.2 then STRAIGHT
        else (VEC_TO_DIRFLAG (sub_vecs a b)).getD 0 |||
          (VEC_TO_DIRFLAG (sub_vecs c b)).getD 0) := by
  unfold get_arrangement
  rw [ha, hb, hc]
  dsimp only
  rw [if_neg (by omega : ¬ 1 < m_distance a b),
    if_neg (by omega : ¬ 1 < m_distance c b)]
  dsimp only
  by_cases hx : a.1 = b.1 ∧ b.1 = c.1
  · simp [hx]
  · by_cases hy : a.2 = b.2 ∧ b.2 = c.2
    · simp [hx, hy]
    · have hA : sub_vecs a b ≠ (0, 0) := by
        unfold sub_vecs
        simp only [Ne, Prod.mk.injEq, not_and]
        intro e1 e2
        have hbc1 : ¬ b.1 = c.1 := fun hh => hx ⟨by omega, hh⟩
        have hbc2 : ¬ b.2 = c.2 := fun hh => hy ⟨by omega, hh⟩
        unfold m_distance at hcb
        omega
      have hC : sub_vecs c b ≠ (0, 0) := by
        unfold sub_vecs
        simp only [Ne, Prod.mk.injEq, not_and]
        intro e1 e2
        have hab1 : ¬ a.1 = b.1 := fun hh => hx ⟨hh, by omega⟩
        have hab2 : ¬ a.2 = b.2 := fun hh => hy ⟨hh, by omega⟩
        unfold m_distance at hab
        omega
      simp only [hx, hy, if_false]
      rcases adjacent_vec_cases hab with h1 | h1 | h1 | h1 | h1 <;>
        rcases adjacent_vec_cases hcb with h2 | h2 | h2 | h2 | h2 <;>
        first
          | exact absurd h1 hA
          | exact absurd h2 hC
          | (rw [h1, h2]; simp [VEC_TO_DIRFLAG, hx, hy])

/-- Witness for get_arrangement_interior: three colinear horizontal cells at
interior index 1 with no wrap give STRAIGHT, not VERTICAL. -/
theorem get_arrangement_interior_witness :
    get_arrangement [(0, 5), (1, 5), (2, 5)] 1 tmX = some STRAIGHT := by
  have h := get_arrangement_interior [(0, 5), (1, 5), (2, 5)] 1 tmX
    (0, 5) (1, 5) (2, 5) rfl rfl rfl (by decide) (by decide)
  simpa using h

/-- C6 amended: the resolver equals the spec-worded resolver in which the
wrap handling of the ahead neighbor c mirrors the behind case except that the
edge test reuses the edge status of a, the vector is negated before
normalization, and a portal exactly one step from b replaces c. -/
theorem get_arrangement_eq_a_edge (snake : List Pos) (index : Nat)
    (tilemap : Tilemap) :
    get_arrangement snake index tilemap =
      arrangement_a_edge snake index tilemap := by
  unfold get_arrangement arrangement_a_edge effective_behind effective_ahead
    classify
  cases h1 : snake[index - 1]? with
  | none => rfl
  | some a =>
    cases h2 : snake[index]? with
    | none => rfl
    | some b =>
      cases h3 : snake[index + 1]? with
      | none => rfl
      | some c =>
        dsimp only
        by_cases hA : 1 < m_distance a b
        · rw [if_pos hA, if_neg (by omega : ¬ m_distance a b ≤ 1)]
          by_cases hC : 1 < m_distance c b
          · rw [if_pos hC, if_neg (by omega : ¬ m_distance c b ≤ 1)]
          · rw [if_neg hC, if_pos (by omega : m_distance c b ≤ 1)]
        · rw [if_neg hA, if_pos (by omega : m_distance a b ≤ 1)]
          by_cases hC : 1 < m_distance c b
          · rw [if_pos hC, if_neg (by omega : ¬ m_distance c b ≤ 1)]
          · rw [if_neg hC, if_pos (by omega : m_distance c b ≤ 1)]

/-- C6 counterexample: with the gap on the c side, c on the arena edge and a
not on it, the source resolver skips the normalization (it consults the edge
status of a) and fails the flag lookup, while the resolver described by the
claim (edge test on c) returns the NE turn flag. -/
theorem arrangement_c_edge_counterexample :
    get_arrangement [(5, 4), (5, 5), (0, 5)] 1 tm6 = none ∧
    arrangement_c_edge [(5, 4), (5, 5), (0, 5)] 1 tm6 = some (N ||| E) ∧
    arrangement_c_edge [(5, 4), (5, 5), (0, 5)] 1 tm6 ≠
      get_arrangement [(5, 4), (5, 5), (0, 5)] 1 tm6 := by
  refine ⟨?_, ?_, ?_⟩ <;> decide

/-- C9 amended: the head and tail sprite lookups fall back to the West sprite
when the heading is unset or the zero vector. -/
theorem draw_area_default_west (tilemap : Tilemap) (s : Snake)
    (h : s.heading = none ∨ s.heading = some (0, 0))
    (hlen : 2 ≤ s.body.length) :
    draw_area tilemap s 0 = HEAD W ∧
    draw_area tilemap s (s.body.length - 1) = TAIL W := by
  constructor
  · unfold draw_area
    rcases h with h | h <;> simp [h]
  · unfold draw_area
    rw [if_neg (by omega : ¬ s.body.length - 1 = 0),
      if_neg (by omega : ¬ s.body.length - 1 < s.body.length - 1)]
    rcases h with h | h <;> simp [h]

/-- Concrete freshly created creature: two body cells, no heading yet. -/
def sWest : Snake := Snake.init cfg0 (0, 0)

/-- Witness for draw_area_default_west at a concrete creature with an unset
heading: head and tail both use the West sprites. -/
theorem draw_area_default_west_witness :
    draw_area tmX sWest 0 = HEAD W ∧ draw_area tmX sWest 1 = TAIL W := by
  have h := draw_area_default_west tmX sWest (Or.inl rfl) (by decide)
  exact ⟨h.1, h.2⟩

/-- Concrete creature whose body has a wrap gap between the first two cells,
with the first cell not on the edge of tmX (which has no edges or portals). -/
def s9 : Snake := { Snake.init cfg0 (0, 0) with
  body := [(0, 0), (5, 3), (6, 3)], heading := some (1, 0) }

/-- C9 counterexample: a flag lookup reachable through draw has no defined
result: the interior segment at index 1 of s9 reaches the turn branch with a
non-unit vector that no edge normalization or portal substitution corrected,
and the resolver (hence the drawn area) is undefined rather than a default. -/
theorem draw_area_turn_lookup_counterexample : draw_area tmX s9 1 = none := by
  decide

/-- Concrete creature for the setback shrink bug: body and previous body both
hold three cells, not invincible. -/
def sC1 : Snake := { Snake.init cfg0 (0, 0) with
  body := [(0, 0), (1, 0), (2, 0)], prev := [(0, 0), (1, 0), (2, 0)],
  isinvincible := false, state := .normal }

/-- Speed gain evaluates to a plain field update when the new value lies
inside the configured bounds. -/
theorem gain_speed_eval (cfg : Config) (s : Snake) (v : ℚ)
    (h1 : ¬ s.speed + v > cfg.MAX_SPEED) (h2 : ¬ s.speed + v < cfg.MIN_SPEED) :
    gain_speed cfg s v = { s with speed := s.speed + v } := by
  unfold gain_speed set_speed
  rw [if_neg h1, if_neg h2]

/-- State of sC1 after the damage branch of the buggy setback hit: previous
body reduced to a single cell. -/
def sC1d : Snake :=
  { sC1 with
    hitpoints := 100
    prev := [(0, 0)]
    speed := sC1.speed + -0 }

/-- C1 (code bug): a setback hit with shrink 2 pops the previous body while
the guard watches the length of body, so the previous body drops to the
single cell (0, 0) — below length 2 — and the setback restore then fails
indexing the second cell (an IndexError in the source). -/
theorem take_damage_setback_shrink_bug :
    shrink_phase true 2 sC1.body sC1.prev = some (sC1.body, [(0, 0)]) ∧
    take_damage cfg0 sC1 0 0 true false 0 2 0 = none := by
  refine ⟨by decide, ?_⟩
  unfold take_damage
  have hd : damage_phase cfg0 sC1 0 true 2 0 = some sC1d := by
    unfold damage_phase
    rw [if_neg (show ¬ sC1.isinvincible = true from by decide)]
    rw [show set_hitpoints cfg0 sC1 (sC1.hitpoints - 0) =
      { sC1 with hitpoints := 100 } from by decide]
    dsimp only
    rw [show shrink_phase true 2 ({ sC1 with hitpoints := 100 } : Snake).body
        ({ sC1 with hitpoints := 100 } : Snake).prev =
        some (sC1.body, [(0, 0)]) from by decide]
    dsimp only
    rw [gain_speed_eval cfg0 _ _ (by norm_num [sC1, Snake.init, cfg0])
      (by norm_num [sC1, Snake.init, cfg0])]
    rfl
  rw [hd]
  dsimp only
  rw [show setback_phase sC1d true = none from by
    unfold setback_phase
    rfl]

/-- Python pop on a nonempty list drops the last element. -/
theorem py_pop_eq {l : List Pos} (h : l.isEmpty = false) :
    py_pop l = some l.dropLast := by
  unfold py_pop
  rw [h]
  rfl

/-- Guarded pop loop: on a list of length at least 2 it always succeeds and
takes the prefix of length the original length minus the pop count, clamped
below at 2. -/
theorem pop_guard_eq (n : Nat) (l : List Pos) (h : 2 ≤ l.length) :
    pop_guard n l = some (l.take (max 2 (l.length - n))) := by
  induction n generalizing l with
  | zero =>
    unfold pop_guard
    rw [Nat.sub_zero, max_eq_right h, List.take_length]
  | succ n ih =>
    unfold pop_guard
    by_cases h2 : l.length = 2
    · rw [if_pos h2]
      have hm : max 2 (l.length - (n + 1)) = 2 := by omega
      rw [hm, ← h2, List.take_length]
    · rw [if_neg h2]
      have hne : l.isEmpty = false := by
        cases l with
        | nil => simp at h
        | cons x xs => rfl
      rw [py_pop_eq hne]
      dsimp only
      rw [ih l.dropLast (by rw [List.length_dropLast]; omega)]
      simp only [List.length_dropLast]
      rw [List.dropLast_eq_take, List.take_take]
      congr 2
      omega

/-- Discrete step of move with no pending growth: prepend the new head, drop
the tail, snapshot prev, subtract the cadence once. -/
theorem move_step_grow_zero (tor : Pos → Pos) (s : Snake) (hd h0 : Pos)
    (t : List Pos) (hm : s.ismoving = true) (hb : s.body = h0 :: t)
    (hh : s.heading = some hd) (hdiv : s.speed + s.speed_bonus ≠ 0)
    (hstep : 1 / (s.speed + s.speed_bonus) ≤ s.elapsed_t)
    (hg : s.grow = (0 : Int)) :
    move tor s = some { s with
      body := (add_vecs (tor h0) hd :: tor h0 :: t).dropLast,
      prev := tor h0 :: t,
      elapsed_t := s.elapsed_t - 1 / (s.speed + s.speed_bonus) } := by
  unfold move
  simp only [hm, Bool.not_true, Bool.false_eq_true, if_false, hb]
  rw [if_neg hdiv, if_pos hstep, hh]
  dsimp only
  rw [if_pos hg]

/-- Discrete step of move with negative pending growth: prepend the new head,
pop one more cell than the absolute growth count with the length-2 guard, and
reset the counter. -/
theorem move_step_grow_neg (tor : Pos → Pos) (s : Snake) (hd h0 : Pos)
    (t : List Pos) (hm : s.ismoving = true) (hb : s.body = h0 :: t)
    (hh : s.heading = some hd) (hdiv : s.speed + s.speed_bonus ≠ 0)
    (hstep : 1 / (s.speed + s.speed_bonus) ≤ s.elapsed_t)
    (hg : s.grow < 0) :
    move tor s = some { s with
      body := (add_vecs (tor h0) hd :: tor h0 :: t).take
        (max 2 (t.length + 1 - s.grow.natAbs)),
      prev := tor h0 :: t,
      elapsed_t := s.elapsed_t - 1 / (s.speed + s.speed_bonus),
      grow := 0 } := by
  unfold move
  simp only [hm, Bool.not_true, Bool.false_eq_true, if_false, hb]
  rw [if_neg hdiv, if_pos hstep, hh]
  dsimp only
  rw [if_neg (by omega : ¬ s.grow = (0 : Int)),
    if_neg (by omega : ¬ s.grow > (0 : Int))]
  rw [pop_guard_eq _ _ (by simp)]
  dsimp only
  have hc : (add_vecs (tor h0) hd :: tor h0 :: t).length - (s.grow.natAbs + 1) =
      t.length + 1 - s.grow.natAbs := by
    simp only [List.length_cons]
    omega
  rw [hc]

/-- Discrete step of move with positive pending growth: prepend the new head,
keep the tail, decrement the counter. -/
theorem move_step_grow_pos (tor : Pos → Pos) (s : Snake) (hd h0 : Pos)
    (t : List Pos) (hm : s.ismoving = true) (hb : s.body = h0 :: t)
    (hh : s.heading = some hd) (hdiv : s.speed + s.speed_bonus ≠ 0)
    (hstep : 1 / (s.speed + s.speed_bonus) ≤ s.elapsed_t)
    (hg : s.grow > (0 : Int)) :
    move tor s = some { s with
      body := add_vecs (tor h0) hd :: tor h0 :: t,
      prev := tor h0 :: t,
      elapsed_t := s.elapsed_t - 1 / (s.speed + s.speed_bonus),
      grow := s.grow - 1 } := by
  unfold move
  simp only [hm, Bool.not_true, Bool.false_eq_true, if_false, hb]
  rw [if_neg hdiv, if_pos hstep, hh]
  dsimp only
  rw [if_neg (by omega : ¬ s.grow = (0 : Int)), if_pos hg]

/-- A frame of move below the cadence threshold: only the toroidal wrap of
the head cell is applied, and the accumulator is untouched. -/
theorem move_no_step (tor : Pos → Pos) (s : Snake) (h0 : Pos)
    (t : List Pos) (hm : s.ismoving = true) (hb : s.body = h0 :: t)
    (hdiv : s.speed + s.speed_bonus ≠ 0)
    (hlt : s.elapsed_t < 1 / (s.speed + s.speed_bonus)) :
    move tor s = some { s with body := tor h0 :: t } := by
  unfold move
  simp only [hm, Bool.not_true, Bool.false_eq_true, if_false, hb]
  rw [if_neg hdiv, if_neg (not_le.mpr hlt)]

/-- Concrete moving creature with a five-cell body, pending shrink of one,
and an accumulator ready for a step. -/
def s3 : Snake := { Snake.init cfg0 (0, 0) with
  body := [(0, 0), (1, 0), (2, 0), (3, 0), (4, 0)], heading := some (1, 0),
  ismoving := true, grow := -1, speed := 1, elapsed_t := 1,
  state := .normal, isinvincible := false }

/-- C3 counterexample: with growthPending of minus one and a five-cell body,
the step leaves four cells (the prepended head minus two pops), not the three
cells that dropping the tail plus two additional cells would leave. -/
theorem move_shrink_count_counterexample :
    (move tor0 s3).map (fun x => x.body.length) = some 4 ∧
    (move tor0 s3).map (fun x => x.body.length) ≠ some 3 := by
  have h := move_step_grow_neg tor0 s3 (1, 0) (0, 0)
    [(1, 0), (2, 0), (3, 0), (4, 0)] rfl rfl rfl
    (by norm_num [s3, Snake.init, cfg0]) (by norm_num [s3, Snake.init, cfg0])
    (by decide)
  rw [h]
  constructor
  · decide
  · decide

/-- C3 amended: a discrete step with negative growthPending prepends the new
head and then drops the tail plus the absolute growth count of additional
cells (one more than the absolute count in total), never reducing the body
below length 2, and resets growthPending to 0. -/
theorem move_negative_growth (tor : Pos → Pos) (s : Snake) (hd h0 : Pos)
    (t : List Pos) (hm : s.ismoving = true) (hb : s.body = h0 :: t)
    (hh : s.heading = some hd) (hg : s.grow < 0)
    (hdiv : s.speed + s.speed_bonus ≠ 0)
    (hstep : 1 / (s.speed + s.speed_bonus) ≤ s.elapsed_t) :
    move tor s = some { s with
      body := (add_vecs (tor h0) hd :: tor h0 :: t).take
        (max 2 (s.body.length - s.grow.natAbs)),
      prev := tor h0 :: t,
      elapsed_t := s.elapsed_t - 1 / (s.speed + s.speed_bonus),
      grow := 0 } := by
  rw [move_step_grow_neg tor s hd h0 t hm hb hh hdiv hstep hg, hb]
  simp only [List.length_cons]

/-- Witness for move_negative_growth at the concrete creature s3: the body
ends with four cells and the counter is reset. -/
theorem move_negative_growth_witness :
    move tor0 s3 = some { s3 with
      body := [(1, 0), (0, 0), (1, 0), (2, 0)],
      prev := [(0, 0), (1, 0), (2, 0), (3, 0), (4, 0)],
      elapsed_t := s3.elapsed_t - 1 / (s3.speed + s3.speed_bonus),
      grow := 0 } := by
  have h := move_negative_growth tor0 s3 (1, 0) (0, 0)
    [(1, 0), (2, 0), (3, 0), (4, 0)] rfl rfl rfl (by decide)
    (by norm_num [s3, Snake.init, cfg0]) (by norm_num [s3, Snake.init, cfg0])
  rw [h]
  rfl

/-- C4: when the accumulated elapsed time reaches the cadence, one move call
performs exactly one discrete step — the cadence is subtracted once from the
accumulator so the remainder carries to the next frame, the previous body is
snapshotted once and one head cell is prepended — and below the cadence no
step occurs. -/
theorem move_cadence_step (tor : Pos → Pos) (s : Snake) (hd h0 : Pos)
    (t : List Pos) (hm : s.ismoving = true) (hb : s.body = h0 :: t)
    (hh : s.heading = some hd) (hdiv : s.speed + s.speed_bonus ≠ 0) :
    (1 / (s.speed + s.speed_bonus) ≤ s.elapsed_t →
      ∃ s2, move tor s = some s2 ∧
        s2.elapsed_t = s.elapsed_t - 1 / (s.speed + s.speed_bonus) ∧
        s2.prev = tor h0 :: t) ∧
    (1 / (s.speed + s.speed_bonus) ≤ s.elapsed_t → s.grow = (0 : Int) →
      move tor s = some { s with
        body := (add_vecs (tor h0) hd :: tor h0 :: t).dropLast,
        prev := tor h0 :: t,
        elapsed_t := s.elapsed_t - 1 / (s.speed + s.speed_bonus) }) ∧
    (s.elapsed_t < 1 / (s.speed + s.speed_bonus) →
      move tor s = some { s with body := tor h0 :: t }) := by
  refine ⟨?_,
    fun hstep hg => move_step_grow_zero tor s hd h0 t hm hb hh hdiv hstep hg,
    fun hlt => move_no_step tor s h0 t hm hb hdiv hlt⟩
  intro hstep
  rcases lt_trichotomy s.grow 0 with hg | hg | hg
  · exact ⟨_, move_step_grow_neg tor s hd h0 t hm hb hh hdiv hstep hg,
      rfl, rfl⟩
  · exact ⟨_, move_step_grow_zero tor s hd h0 t hm hb hh hdiv hstep hg,
      rfl, rfl⟩
  · exact ⟨_, move_step_grow_pos tor s hd h0 t hm hb hh hdiv hstep hg,
      rfl, rfl⟩

/-- Concrete moving creature with speed 10 (cadence one tenth) that has
accumulated three frames of one twenty-fifth each. -/
def sE3 : Snake := { Snake.init cfg0 (0, 0) with
  body := [(1, 0), (0, 0)], heading := some (1, 0), ismoving := true,
  speed := 10, elapsed_t := 3 / 25, state := .normal, isinvincible := false }

/-- State after the step of sE3. -/
def sE4 : Snake := { sE3 with
  body := [(2, 0), (1, 0)]
  prev := [(1, 0), (0, 0)]
  elapsed_t := sE3.elapsed_t - 1 / (sE3.speed + sE3.speed_bonus) }

/-- Witness for move_cadence_step: with cadence one tenth and accumulated
elapsed time three twenty-fifths, exactly one step occurs and the remainder
one fiftieth carries to the next frame. -/
theorem move_cadence_step_witness :
    move tor0 sE3 = some sE4 ∧ sE4.elapsed_t = 1 / 50 ∧
    sE4.body = [(2, 0), (1, 0)] := by
  have h := (move_cadence_step tor0 sE3 (1, 0) (1, 0) [(0, 0)] rfl rfl rfl
    (by norm_num [sE3, Snake.init, cfg0])).2.1
    (by norm_num [sE3, Snake.init, cfg0]) rfl
  refine ⟨?_, by norm_num [sE4, sE3, Snake.init, cfg0], rfl⟩
  rw [h]
  rfl

/-- The move routine never changes the flags, the timers state, the heading
or the speeds of the creature. -/
theorem move_preserves {tor : Pos → Pos} {s s2 : Snake}
    (h : move tor s = some s2) :
    s2.speed = s.speed ∧ s2.speed_bonus = s.speed_bonus ∧
    s2.isvisible = s.isvisible ∧ s2.state = s.state ∧
    s2.isalive = s.isalive ∧ s2.isinvincible = s.isinvincible ∧
    s2.heading = s.heading ∧ s2.ismoving = s.ismoving ∧
    s2.hitpoints = s.hitpoints := by
  unfold move at h
  by_cases hm : s.ismoving = true
  · simp only [hm, Bool.not_true, Bool.false_eq_true, if_false] at h
    cases hbody : s.body with
    | nil =>
      rw [hbody] at h
      exact absurd h (by simp)
    | cons h0 rest =>
      rw [hbody] at h
      dsimp only at h
      by_cases hz : s.speed + s.speed_bonus = 0
      · rw [if_pos hz] at h
        exact absurd h (by simp)
      · rw [if_neg hz] at h
        by_cases hstep : 1 / (s.speed + s.speed_bonus) ≤ s.elapsed_t
        · rw [if_pos hstep] at h
          cases hh : s.heading with
          | none =>
            rw [hh] at h
            exact absurd h (by simp)
          | some hdg =>
            rw [hh] at h
            dsimp only at h
            by_cases hg0 : s.grow = (0 : Int)
            · rw [if_pos hg0] at h
              cases h
              exact ⟨rfl, rfl, rfl, rfl, rfl, rfl, rfl, hm.symm, rfl⟩
            · rw [if_neg hg0] at h
              by_cases hgp : s.grow > (0 : Int)
              · rw [if_pos hgp] at h
                cases h
                exact ⟨rfl, rfl, rfl, rfl, rfl, rfl, rfl, hm.symm, rfl⟩
              · rw [if_neg hgp] at h
                cases hp : pop_guard (s.grow.natAbs + 1)
                    (add_vecs (tor h0) hdg :: tor h0 :: rest) with
                | none =>
                  rw [hp] at h
                  exact absurd h (by simp)
                | some b2 =>
                  rw [hp] at h
                  cases h
                  exact ⟨rfl, rfl, rfl, rfl, rfl, rfl, rfl, hm.symm, rfl⟩
        · rw [if_neg hstep] at h
          cases h
          exact ⟨rfl, rfl, rfl, rfl, rfl, rfl, rfl, hm.symm, rfl⟩
  · simp only [Bool.not_eq_true] at hm
    simp only [hm, Bool.not_false, if_true] at h
    cases h
    exact ⟨rfl, rfl, rfl, rfl, rfl, rfl, rfl, rfl, rfl⟩

/-- C8: during invincibility, away from the lifetime expiry frame, when the
blink accumulator reaches the configured blink rate it is reduced by
subtracting the rate — preserving overshoot — and visibility is toggled;
below the rate the accumulator just grows and visibility is unchanged. -/
theorem invincible_blink (cfg : Config) (tor : Pos → Pos) (s s2 : Snake)
    (dt lt el eb : ℚ) (hst : s.state = .invincible lt el eb)
    (hlife : el + dt < lt)
    (hup : state_update cfg tor s dt = some s2) :
    (cfg.INVINCIBILITY_BLINK_RATE ≤ eb + dt →
      s2.state = .invincible lt (el + dt) (eb + dt - cfg.INVINCIBILITY_BLINK_RATE) ∧
      s2.isvisible = !s.isvisible) ∧
    (eb + dt < cfg.INVINCIBILITY_BLINK_RATE →
      s2.state = .invincible lt (el + dt) (eb + dt) ∧
      s2.isvisible = s.isvisible) := by
  unfold state_update at hup
  rw [hst] at hup
  dsimp only at hup
  rw [if_neg (not_le.mpr hlife)] at hup
  constructor
  · intro hblink
    rw [if_pos hblink] at hup
    have hp := move_preserves hup
    refine ⟨?_, ?_⟩
    · rw [hp.2.2.2.1]
    · rw [hp.2.2.1]
  · intro hblink
    rw [if_neg (not_le.mpr hblink)] at hup
    have hp := move_preserves hup
    refine ⟨?_, ?_⟩
    · rw [hp.2.2.2.1]
    · rw [hp.2.2.1]

/-- Concrete invincible creature with both timers at zero and lifetime 5. -/
def s8 : Snake := Snake.init cfg0 (0, 0)

/-- State of s8 after one update of three tenths: blink rate one quarter was
reached, so the accumulator keeps the overshoot of one twentieth and the
visibility has toggled. -/
def s8b : Snake := { s8 with
  isvisible := !s8.isvisible
  state := .invincible 5 (0 + 3 / 10) (0 + 3 / 10 - cfg0.INVINCIBILITY_BLINK_RATE) }

/-- Witness for invincible_blink: a dt of three tenths does not divide the
blink rate one quarter; the accumulator retains the overshoot and the
visibility toggles. -/
theorem invincible_blink_witness :
    state_update cfg0 tor0 s8 (3 / 10) = some s8b ∧
    s8b.state = .invincible 5 (3 / 10) (1 / 20) ∧
    s8b.isvisible = !s8.isvisible := by
  have hup : state_update cfg0 tor0 s8 (3 / 10) = some s8b := by
    unfold state_update
    rw [show s8.state = .invincible 5 0 0 from rfl]
    dsimp only
    rw [if_pos (by norm_num [cfg0] :
      cfg0.INVINCIBILITY_BLINK_RATE ≤ 0 + 3 / 10)]
    rw [if_neg (by norm_num : ¬ (5 : ℚ) ≤ 0 + 3 / 10)]
    unfold move
    rfl
  have h := (invincible_blink cfg0 tor0 s8 s8b (3 / 10) 5 0 0 rfl
    (by norm_num) hup).1 (by norm_num [cfg0])
  refine ⟨hup, ?_, h.2⟩
  rw [h.1]
  norm_num [cfg0]

/-- Hitpoints setter evaluates to a plain field update when the value lies
inside the bounds. -/
theorem set_hitpoints_eval (cfg : Config) (s : Snake) (v : Int)
    (h1 : ¬ v > cfg.MAX_HITPOINTS) (h2 : ¬ v < 0) :
    set_hitpoints cfg s v = { s with hitpoints := v } := by
  unfold set_hitpoints
  rw [if_neg h1, if_neg h2]

/-- The hitpoints setter touches only the hitpoints field. -/
theorem set_hitpoints_fields (cfg : Config) (s : Snake) (v : Int) :
    (set_hitpoints cfg s v).speed = s.speed ∧
    (set_hitpoints cfg s v).speed_bonus = s.speed_bonus ∧
    (set_hitpoints cfg s v).isalive = s.isalive ∧
    (set_hitpoints cfg s v).body = s.body ∧
    (set_hitpoints cfg s v).prev = s.prev := by
  unfold set_hitpoints
  split
  · exact ⟨rfl, rfl, rfl, rfl, rfl⟩
  · split
    · exact ⟨rfl, rfl, rfl, rfl, rfl⟩
    · exact ⟨rfl, rfl, rfl, rfl, rfl⟩

/-- The speed setter touches only the speed field. -/
theorem set_speed_fields (cfg : Config) (s : Snake) (v : ℚ) :
    (set_speed cfg s v).speed_bonus = s.speed_bonus ∧
    (set_speed cfg s v).isalive = s.isalive ∧
    (set_speed cfg s v).hitpoints = s.hitpoints ∧
    (set_speed cfg s v).body = s.body ∧
    (set_speed cfg s v).prev = s.prev := by
  unfold set_speed
  split
  · exact ⟨rfl, rfl, rfl, rfl, rfl⟩
  · split
    · exact ⟨rfl, rfl, rfl, rfl, rfl⟩
    · exact ⟨rfl, rfl, rfl, rfl, rfl⟩

/-- The speed setter clamps into the configured bounds. -/
theorem set_speed_mem (cfg : Config) (s : Snake) (v : ℚ)
    (hms : cfg.MIN_SPEED ≤ cfg.MAX_SPEED) :
    cfg.MIN_SPEED ≤ (set_speed cfg s v).speed ∧
    (set_speed cfg s v).speed ≤ cfg.MAX_SPEED := by
  unfold set_speed
  split
  · exact ⟨hms, le_refl _⟩
  · split
    · exact ⟨le_refl _, hms⟩
    · rename_i h1 h2
      exact ⟨not_lt.mp h2, not_lt.mp h1⟩

/-- State changes preserve everything except the state tag and, on leaving an
invincible state, the visibility and invincibility flags. -/
theorem change_state_fields (s : Snake) (ns : SState) :
    (change_state s ns).isalive = s.isalive ∧
    (change_state s ns).speed = s.speed ∧
    (change_state s ns).speed_bonus = s.speed_bonus ∧
    (change_state s ns).hitpoints = s.hitpoints ∧
    (change_state s ns).body = s.body ∧
    (change_state s ns).prev = s.prev ∧
    (change_state s ns).heading = s.heading := by
  unfold change_state state_leave
  cases hst : s.state <;> simp [hst]

/-- The damage branch leaves liveness untouched. -/
theorem damage_phase_isalive {cfg : Config} {s s2 : Snake} {dmg : Int}
    {setback : Bool} {shrink : Nat} {sd : ℚ}
    (h : damage_phase cfg s dmg setback shrink sd = some s2) :
    s2.isalive = s.isalive := by
  unfold damage_phase at h
  by_cases hi : s.isinvincible = true
  · rw [if_pos hi] at h
    cases h
    rfl
  · rw [if_neg hi] at h
    dsimp only at h
    cases hs : shrink_phase setback shrink
        (set_hitpoints cfg s (s.hitpoints - dmg)).body
        (set_hitpoints cfg s (s.hitpoints - dmg)).prev with
    | none =>
      rw [hs] at h
      exact absurd h (by simp)
    | some bp =>
      obtain ⟨b1, p1⟩ := bp
      rw [hs] at h
      dsimp only at h
      cases h
      rw [show (gain_speed cfg { set_hitpoints cfg s (s.hitpoints - dmg) with
        body := b1, prev := p1 } (-sd)).isalive =
        ({ set_hitpoints cfg s (s.hitpoints - dmg) with
          body := b1, prev := p1 } : Snake).isalive from
        (set_speed_fields cfg _ _).2.1]
      exact (set_hitpoints_fields cfg s (s.hitpoints - dmg)).2.2.1

/-- The setback branch leaves liveness untouched. -/
theorem setback_phase_isalive {s s2 : Snake} {setback : Bool}
    (h : setback_phase s setback = some s2) : s2.isalive = s.isalive := by
  unfold setback_phase at h
  by_cases hb : setback = true
  · rw [if_pos hb] at h
    dsimp only at h
    cases hp0 : s.prev[0]? with
    | none => rw [hp0] at h; exact absurd h (by simp)
    | some p0 =>
      cases hp1 : s.prev[1]? with
      | none => rw [hp0, hp1] at h; exact absurd h (by simp)
      | some p1 =>
        rw [hp0, hp1] at h
        dsimp only at h
        cases h
        rfl
  · rw [if_neg hb] at h
    cases h
    rfl

/-- The invincibility grant leaves liveness untouched. -/
theorem grant_phase_isalive (s : Snake) (invincible : Bool) (il : ℚ) :
    (grant_phase s invincible il).isalive = s.isalive := by
  unfold grant_phase
  split
  · exact (change_state_fields _ _).1
  · rfl

/-- C5 amended: after any take_damage call, if the resulting hitpoints are at
most 0 the creature is marked not alive and the killed handler fires once
with the attacker identity — regardless of invincibility or of whether damage
was applied; otherwise the handler does not fire and liveness is unchanged.
The handler fires once per such call, not once per death transition: a call
on an already dead creature fires it again. -/
theorem take_damage_death_check (cfg : Config) (s s2 : Snake) (ev : List Int)
    (dmg dealt_by : Int) (setback invincible : Bool) (il : ℚ) (shrink : Nat)
    (sd : ℚ)
    (h : take_damage cfg s dmg dealt_by setback invincible il shrink sd =
      some (s2, ev)) :
    (s2.hitpoints ≤ 0 → s2.isalive = false ∧ ev = [dealt_by]) ∧
    (0 < s2.hitpoints → ev = [] ∧ s2.isalive = s.isalive) := by
  unfold take_damage at h
  cases hd : damage_phase cfg s dmg setback shrink sd with
  | none => rw [hd] at h; exact absurd h (by simp)
  | some sD =>
    rw [hd] at h
    dsimp only at h
    cases hs : setback_phase sD setback with
    | none => rw [hs] at h; exact absurd h (by simp)
    | some sS =>
      rw [hs] at h
      dsimp only at h
      unfold death_phase at h
      by_cases hhp : (grant_phase sS invincible il).hitpoints ≤ 0
      · rw [if_pos hhp] at h
        cases h
        constructor
        · intro _
          exact ⟨rfl, rfl⟩
        · intro hpos
          exact absurd hhp (by exact not_le.mpr hpos)
      · rw [if_neg hhp] at h
        cases h
        constructor
        · intro hle
          exact absurd hle hhp
        · intro _
          refine ⟨rfl, ?_⟩
          rw [grant_phase_isalive, setback_phase_isalive hs,
            damage_phase_isalive hd]

/-- Concrete creature one hit from death. -/
def sA : Snake := { Snake.init cfg0 (0, 0) with
  hitpoints := 1, isinvincible := false, state := .normal }

/-- State of sA after the lethal hit. -/
def sA1 : Snake := { sA with hitpoints := 0, speed := sA.speed + -0 }

/-- Dead state of sA, as returned together with the first killed event. -/
def sA2 : Snake := { sA1 with isalive := false }

/-- State of sA2 after the damage branch of the second hit. -/
def sA3 : Snake := { sA2 with
  hitpoints := 0
  speed := sA2.speed + -0 }

/-- Dead state after the second hit on the already dead creature. -/
def sA4 : Snake := { sA3 with isalive := false }

/-- Evaluation of the lethal hit on sA: hitpoints reach 0, the creature dies
and the handler fires with attacker 7. -/
theorem take_damage_sA_eval :
    take_damage cfg0 sA 1 7 false false 0 0 0 = some (sA2, [7]) := by
  unfold take_damage
  have hd : damage_phase cfg0 sA 1 false 0 0 = some sA1 := by
    unfold damage_phase
    rw [if_neg (show ¬ sA.isinvincible = true from by decide)]
    rw [set_hitpoints_eval cfg0 sA (sA.hitpoints - 1) (by decide) (by decide)]
    dsimp only [shrink_phase]
    rw [gain_speed_eval cfg0 _ _ (by norm_num [sA, Snake.init, cfg0])
      (by norm_num [sA, Snake.init, cfg0])]
    rfl
  rw [hd]
  dsimp only
  rw [show setback_phase sA1 false = some sA1 from rfl]
  rfl

/-- Evaluation of a further hit on the dead creature sA2: the handler fires
again although no new death transition occurs. -/
theorem take_damage_sA2_eval :
    take_damage cfg0 sA2 0 7 false false 0 0 0 = some (sA4, [7]) := by
  unfold take_damage
  have hd : damage_phase cfg0 sA2 0 false 0 0 = some sA3 := by
    unfold damage_phase
    rw [if_neg (show ¬ sA2.isinvincible = true from by decide)]
    rw [set_hitpoints_eval cfg0 sA2 (sA2.hitpoints - 0) (by decide) (by decide)]
    dsimp only [shrink_phase]
    rw [gain_speed_eval cfg0 _ _
      (by norm_num [sA2, sA1, sA, Snake.init, cfg0])
      (by norm_num [sA2, sA1, sA, Snake.init, cfg0])]
    rfl
  rw [hd]
  dsimp only
  rw [show setback_phase sA3 false = some sA3 from rfl]
  rfl

/-- C5 counterexample: the lethal hit kills sA and fires the handler once;
the second call on the already dead creature fires the handler again with no
new death transition (isalive stays false throughout), so the callback does
not fire exactly once per death transition. -/
theorem death_callback_refires_counterexample :
    take_damage cfg0 sA 1 7 false false 0 0 0 = some (sA2, [7]) ∧
    sA2.isalive = false ∧
    take_damage cfg0 sA2 0 7 false false 0 0 0 = some (sA4, [7]) ∧
    sA4.isalive = false :=
  ⟨take_damage_sA_eval, rfl, take_damage_sA2_eval, rfl⟩

/-- Witness for take_damage_death_check at the lethal hit on sA. -/
theorem take_damage_death_check_witness :
    take_damage cfg0 sA 1 7 false false 0 0 0 = some (sA2, [7]) ∧
    sA2.isalive = false ∧ ([7] : List Int) = [7] := by
  have h := (take_damage_death_check cfg0 sA sA2 [7] 1 7 false false 0 0 0
    take_damage_sA_eval).1 (by decide)
  exact ⟨take_damage_sA_eval, h.1, h.2⟩

/-- The setback branch leaves both speed fields untouched. -/
theorem setback_phase_speed {s s2 : Snake} {setback : Bool}
    (h : setback_phase s setback = some s2) :
    s2.speed = s.speed ∧ s2.speed_bonus = s.speed_bonus := by
  unfold setback_phase at h
  by_cases hb : setback = true
  · rw [if_pos hb] at h
    dsimp only at h
    cases hp0 : s.prev[0]? with
    | none => rw [hp0] at h; exact absurd h (by simp)
    | some p0 =>
      cases hp1 : s.prev[1]? with
      | none => rw [hp0, hp1] at h; exact absurd h (by simp)
      | some p1 =>
        rw [hp0, hp1] at h
        dsimp only at h
        cases h
        exact ⟨rfl, rfl⟩
  · rw [if_neg hb] at h
    cases h
    exact ⟨rfl, rfl⟩

/-- The invincibility grant leaves both speed fields untouched. -/
theorem grant_phase_speed (s : Snake) (invincible : Bool) (il : ℚ) :
    (grant_phase s invincible il).speed = s.speed ∧
    (grant_phase s invincible il).speed_bonus = s.speed_bonus := by
  unfold grant_phase
  split
  · exact ⟨(change_state_fields _ _).2.1, (change_state_fields _ _).2.2.1⟩
  · exact ⟨rfl, rfl⟩

/-- The damage branch keeps the speed inside the bounds and leaves the bonus
untouched. -/
theorem damage_phase_speed {cfg : Config} {s s2 : Snake} {dmg : Int}
    {setback : Bool} {shrink : Nat} {sd : ℚ}
    (hms : cfg.MIN_SPEED ≤ cfg.MAX_SPEED)
    (hlo : cfg.MIN_SPEED ≤ s.speed) (hhi : s.speed ≤ cfg.MAX_SPEED)
    (h : damage_phase cfg s dmg setback shrink sd = some s2) :
    (cfg.MIN_SPEED ≤ s2.speed ∧ s2.speed ≤ cfg.MAX_SPEED) ∧
    s2.speed_bonus = s.speed_bonus := by
  unfold damage_phase at h
  by_cases hi : s.isinvincible = true
  · rw [if_pos hi] at h
    cases h
    exact ⟨⟨hlo, hhi⟩, rfl⟩
  · rw [if_neg hi] at h
    dsimp only at h
    cases hs : shrink_phase setback shrink
        (set_hitpoints cfg s (s.hitpoints - dmg)).body
        (set_hitpoints cfg s (s.hitpoints - dmg)).prev with
    | none => rw [hs] at h; exact absurd h (by simp)
    | some bp =>
      obtain ⟨b1, p1⟩ := bp
      rw [hs] at h
      dsimp only at h
      cases h
      refine ⟨set_speed_mem cfg _ _ hms, ?_⟩
      unfold gain_speed
      rw [(set_speed_fields cfg _ _).1]
      exact (set_hitpoints_fields cfg s (s.hitpoints - dmg)).2.1

/-- Damage resolution keeps the speed inside the bounds and leaves the bonus
untouched. -/
theorem take_damage_speed {cfg : Config} {s s2 : Snake} {ev : List Int}
    {dmg dealt_by : Int} {setback invincible : Bool} {il : ℚ} {shrink : Nat}
    {sd : ℚ}
    (hms : cfg.MIN_SPEED ≤ cfg.MAX_SPEED)
    (hlo : cfg.MIN_SPEED ≤ s.speed) (hhi : s.speed ≤ cfg.MAX_SPEED)
    (h : take_damage cfg s dmg dealt_by setback invincible il shrink sd =
      some (s2, ev)) :
    (cfg.MIN_SPEED ≤ s2.speed ∧ s2.speed ≤ cfg.MAX_SPEED) ∧
    s2.speed_bonus = s.speed_bonus := by
  unfold take_damage at h
  cases hd : damage_phase cfg s dmg setback shrink sd with
  | none => rw [hd] at h; exact absurd h (by simp)
  | some sD =>
    rw [hd] at h
    dsimp only at h
    cases hs : setback_phase sD setback with
    | none => rw [hs] at h; exact absurd h (by simp)
    | some sS =>
      rw [hs] at h
      dsimp only at h
      unfold death_phase at h
      have hD := damage_phase_speed hms hlo hhi hd
      have hS := setback_phase_speed hs
      have hG := grant_phase_speed sS invincible il
      by_cases hhp : (grant_phase sS invincible il).hitpoints ≤ 0
      · rw [if_pos hhp] at h
        cases h
        refine ⟨⟨?_, ?_⟩, ?_⟩
        · show cfg.MIN_SPEED ≤ (grant_phase sS invincible il).speed
          rw [hG.1, hS.1]
          exact hD.1.1
        · show (grant_phase sS invincible il).speed ≤ cfg.MAX_SPEED
          rw [hG.1, hS.1]
          exact hD.1.2
        · show (grant_phase sS invincible il).speed_bonus = s.speed_bonus
          rw [hG.2, hS.2]
          exact hD.2
      · rw [if_neg hhp] at h
        cases h
        refine ⟨⟨?_, ?_⟩, ?_⟩
        · rw [hG.1, hS.1]
          exact hD.1.1
        · rw [hG.1, hS.1]
          exact hD.1.2
        · rw [hG.2, hS.2]
          exact hD.2

/-- The state dispatch update leaves both speed fields untouched. -/
theorem state_update_speed {cfg : Config} {tor : Pos → Pos} {s s2 : Snake}
    {dt : ℚ} (h : state_update cfg tor s dt = some s2) :
    s2.speed = s.speed ∧ s2.speed_bonus = s.speed_bonus := by
  unfold state_update at h
  cases hst : s.state with
  | normal =>
    rw [hst] at h
    dsimp only at h
    exact ⟨(move_preserves h).1, (move_preserves h).2.1⟩
  | invincible lt el eb =>
    rw [hst] at h
    dsimp only at h
    by_cases hbl : cfg.INVINCIBILITY_BLINK_RATE ≤ eb + dt
    · rw [if_pos hbl] at h
      by_cases hlt : lt ≤ el + dt
      · rw [if_pos hlt] at h
        rcases move_preserves h with ⟨p1, p2, _⟩
        rw [p1, p2]
        exact ⟨(change_state_fields _ _).2.1, (change_state_fields _ _).2.2.1⟩
      · rw [if_neg hlt] at h
        exact ⟨(move_preserves h).1, (move_preserves h).2.1⟩
    · rw [if_neg hbl] at h
      by_cases hlt : lt ≤ el + dt
      · rw [if_pos hlt] at h
        rcases move_preserves h with ⟨p1, p2, _⟩
        rw [p1, p2]
        exact ⟨(change_state_fields _ _).2.1, (change_state_fields _ _).2.2.1⟩
      · rw [if_neg hlt] at h
        exact ⟨(move_preserves h).1, (move_preserves h).2.1⟩

/-- A frame update leaves both speed fields untouched. -/
theorem update_speed {cfg : Config} {tor : Pos → Pos} {s s2 : Snake} {dt : ℚ}
    (h : update cfg tor s dt = some s2) :
    s2.speed = s.speed ∧ s2.speed_bonus = s.speed_bonus := by
  unfold update at h
  split at h
  · cases h
    exact ⟨rfl, rfl⟩
  · split at h
    · dsimp only at h
      have hs := state_update_speed h
      exact ⟨hs.1, hs.2⟩
    · exact state_update_speed h

/-- gain_hitpoints leaves both speed fields untouched. -/
theorem gain_hitpoints_speed (cfg : Config) (s : Snake) (v : Int) :
    (gain_hitpoints cfg s v).speed = s.speed ∧
    (gain_hitpoints cfg s v).speed_bonus = s.speed_bonus := by
  unfold gain_hitpoints
  dsimp only
  split
  · constructor
    · rw [(set_hitpoints_fields _ _ _).1, (set_hitpoints_fields _ _ _).1]
    · rw [(set_hitpoints_fields _ _ _).2.1, (set_hitpoints_fields _ _ _).2.1]
  · exact ⟨(set_hitpoints_fields _ _ _).1, (set_hitpoints_fields _ _ _).2.1⟩

/-- respawn resets the speed to the initial speed and keeps the bonus. -/
theorem respawn_speed (cfg : Config) (s : Snake) (pos : Pos) :
    (respawn cfg s pos).speed = cfg.INIT_SPEED ∧
    (respawn cfg s pos).speed_bonus = s.speed_bonus := by
  unfold respawn
  dsimp only
  constructor
  · rw [(change_state_fields _ _).2.1]
    exact (set_hitpoints_fields _ _ _).1
  · rw [(change_state_fields _ _).2.2.1]
    exact (set_hitpoints_fields _ _ _).2.1

/-- C2 amended: along every state reachable through the public operations the
speed stays clamped inside the configured bounds (the initial speed lying
inside them), so whenever the unclamped additive speedBonus is nonnegative —
in particular while it keeps its initial value 0 — the movement cadence
divisor speed plus speedBonus is strictly positive. -/
theorem reach_divisor_pos {cfg : Config} {s : Snake}
    (h1 : 0 < cfg.MIN_SPEED) (h2 : cfg.MIN_SPEED ≤ cfg.INIT_SPEED)
    (h3 : cfg.INIT_SPEED ≤ cfg.MAX_SPEED) (hr : Reach cfg s) :
    cfg.MIN_SPEED ≤ s.speed ∧ s.speed ≤ cfg.MAX_SPEED ∧
    (0 ≤ s.speed_bonus → 0 < s.speed + s.speed_bonus) := by
  have hms : cfg.MIN_SPEED ≤ cfg.MAX_SPEED := le_trans h2 h3
  have key : cfg.MIN_SPEED ≤ s.speed ∧ s.speed ≤ cfg.MAX_SPEED := by
    induction hr with
    | sInit pos => exact ⟨h2, h3⟩
    | sGainSpeed v hr ih => exact set_speed_mem cfg _ _ hms
    | sGainHitpoints v hr ih =>
      rcases gain_hitpoints_speed cfg _ v with ⟨hsp, _⟩
      rw [hsp]
      exact ih
    | sSetSpeedBonus v hr ih => exact ih
    | sSetHeading v hr ih => exact ih
    | sSetMoving b hr ih => exact ih
    | sTakeDamage dmg dealt_by setback invincible il shrink sd hr h ih =>
      exact (take_damage_speed hms ih.1 ih.2 h).1
    | sRespawn pos hr ih =>
      rcases respawn_speed cfg _ pos with ⟨hsp, _⟩
      rw [hsp]
      exact ⟨h2, h3⟩
    | sUpdate tor dt hr h ih =>
      rcases update_speed h with ⟨hsp, _⟩
      rw [hsp]
      exact ih
    | sMove tor hr h ih =>
      rcases move_preserves h with ⟨hsp, _⟩
      rw [hsp]
      exact ih
  refine ⟨key.1, key.2, fun hb => ?_⟩
  have hpos : 0 < s.speed := lt_of_lt_of_le h1 key.1
  linarith

/-- Reachable creature whose unclamped speed bonus cancels its speed. -/
def sBonus : Snake := set_speed_bonus (Snake.init cfg0 (0, 0)) (-5)

/-- The same creature once the driver marks it moving. -/
def sBonusM : Snake := { sBonus with ismoving := true }

/-- C2 counterexample: the unclamped speed bonus setter reaches a state whose
cadence divisor speed plus speedBonus is exactly zero although the clamped
speed itself is at its initial value, and a move call on that state, once it
is marked moving, hits the division by zero (modelled as none). -/
theorem speed_bonus_zero_divisor_counterexample :
    Reach cfg0 sBonus ∧ sBonus.speed + sBonus.speed_bonus = 0 ∧
    ¬ 0 < sBonus.speed + sBonus.speed_bonus ∧
    Reach cfg0 sBonusM ∧ move tor0 sBonusM = none := by
  refine ⟨Reach.sSetSpeedBonus (-5) (Reach.sInit (0, 0)), ?_, ?_,
    Reach.sSetMoving true (Reach.sSetSpeedBonus (-5) (Reach.sInit (0, 0))),
    ?_⟩
  · norm_num [sBonus, set_speed_bonus, Snake.init, cfg0]
  · norm_num [sBonus, set_speed_bonus, Snake.init, cfg0]
  · unfold move
    rw [if_neg (show ¬ (!sBonusM.ismoving) = true from by decide)]
    rw [show sBonusM.body = [(0, 0), (1, 0)] from rfl]
    dsimp only
    rw [if_pos (show sBonusM.speed + sBonusM.speed_bonus = 0 from by
      norm_num [sBonusM, sBonus, set_speed_bonus, Snake.init, cfg0])]

/-- Witness for reach_divisor_pos at the freshly created creature, whose
bonus is still 0: the divisor is strictly positive. -/
theorem reach_divisor_pos_witness :
    cfg0.MIN_SPEED ≤ (Snake.init cfg0 (0, 0)).speed ∧
    (Snake.init cfg0 (0, 0)).speed ≤ cfg0.MAX_SPEED ∧
    (0 ≤ (Snake.init cfg0 (0, 0)).speed_bonus →
      0 < (Snake.init cfg0 (0, 0)).speed + (Snake.init cfg0 (0, 0)).speed_bonus) :=
  reach_divisor_pos (by norm_num [cfg0]) (by norm_num [cfg0])
    (by norm_num [cfg0]) (Reach.sInit (0, 0))

end BattleSnakes
